import Mathlib

/-!
Shallow embedding of `src/train.py` from the emotion_recognition repository.

The script is a single training procedure `train(config)` plus a `__main__`
block.  External collaborators (the model, the datasets, the CUDA runtime,
the dataloaders) are represented by an environment `Env`; the observable
actions of the loop (forward/backward passes, optimizer steps, scheduler
steps, checkpoint saves, log lines) are recorded as an event trace.
Python floats are modelled as rationals; a Python exception is the
`Except.error` branch carrying its message.
-/

namespace EmotionRecognition

/-- A batch yielded by a dataloader: the scalar value of the criterion on the
batch (`loss.item()`), and one `(predicted, label)` pair per sample, where
`predicted` is the argmax of the model outputs (`outputs.max(1)`). -/
structure Batch where
  loss : ℚ
  samples : List (ℕ × ℕ)
deriving Repr, DecidableEq

/-- `labels.size(0)`: the number of samples in the batch. -/
def Batch.size (b : Batch) : ℕ := b.samples.length

/-- `predicted.eq(labels).sum().item()`: samples whose argmax prediction
equals the label. -/
def Batch.correct (b : Batch) : ℕ := (b.samples.filter (fun s => s.1 == s.2)).length

/-- Observable actions of the training loop, in program order. -/
inductive Ev where
  | zeroGrad
  | forward (autocast : Bool)
  | backward (scaled : Bool)
  | optStep (scaled : Bool)
  | scalerUpdate
  | valForward (autocast : Bool) (noGrad : Bool)
  | schedStep (metric : ℚ)
  | logLR
  | logMetrics (trainLoss trainAcc valLoss valAcc : ℚ)
  | saveCheckpoint (epoch : ℕ) (valLoss valAcc : ℚ)
  | logBestSaved (valAcc : ℚ)
deriving Repr, DecidableEq

/-- The running accumulators of one phase: `train_loss`/`val_loss`,
`correct`/`val_correct`, `total`/`val_total` (lines 90-92 and 130-132). -/
structure PhaseAcc where
  loss : ℚ
  correct : ℕ
  total : ℕ
deriving Repr, DecidableEq

def PhaseAcc.init : PhaseAcc := ⟨0, 0, 0⟩

/-- Lines 117-120: accumulate loss, correct-prediction count and sample
count after processing a batch. -/
def PhaseAcc.add (a : PhaseAcc) (b : Batch) : PhaseAcc :=
  ⟨a.loss + b.loss, a.correct + b.correct, a.total + b.size⟩

/-- Lines 99-115, the actions taken on one training batch: `zero_grad`,
then either the mixed-precision path (autocast forward, scaled backward,
`scaler.step`, `scaler.update`) when CUDA is available, or the regular
full-precision path otherwise. -/
def trainBatchEvents (cuda : Bool) : List Ev :=
  if cuda then
    [.zeroGrad, .forward true, .backward true, .optStep true, .scalerUpdate]
  else
    [.zeroGrad, .forward false, .backward false, .optStep false]

/-- Lines 96-126: iterate the training loader, threading the accumulator.
A batch that raises propagates its exception (there is no handler in the
loop). -/
def trainPhase (cuda : Bool) : List (Except String Batch) → PhaseAcc →
    Except String (PhaseAcc × List Ev)
  | [], acc => .ok (acc, [])
  | .error e :: _, _ => .error e
  | .ok b :: rest, acc =>
    match trainPhase cuda rest (acc.add b) with
    | .error e => .error e
    | .ok (acc', evs) => .ok (acc', trainBatchEvents cuda ++ evs)

/-- Lines 138-144: one validation batch is a single forward pass, with
autocast exactly when CUDA is available, always under `torch.no_grad()`. -/
def valBatchEvents (cuda : Bool) : List Ev := [.valForward cuda true]

/-- Lines 134-149: iterate the validation loader under `no_grad`. -/
def valPhase (cuda : Bool) : List (Except String Batch) → PhaseAcc →
    Except String (PhaseAcc × List Ev)
  | [], acc => .ok (acc, [])
  | .error e :: _, _ => .error e
  | .ok b :: rest, acc =>
    match valPhase cuda rest (acc.add b) with
    | .error e => .error e
    | .ok (acc', evs) => .ok (acc', valBatchEvents cuda ++ evs)

/-- What one epoch of the loop produced. -/
structure EpochInfo where
  trainAcc : PhaseAcc
  valPhaseAcc : PhaseAcc
  val_acc : ℚ
  saved : Bool
  events : List Ev
deriving Repr, DecidableEq

/-- Lines 88-173: one iteration of `for epoch in range(...)`: training
phase, validation phase, `val_acc = 100. * val_correct / val_total`,
`scheduler.step(val_acc)`, logging, and the checkpoint-on-improvement
test `if val_acc > best_val_acc`.  Returns the updated `best_val_acc`. -/
def runEpoch (cuda : Bool) (tbs vbs : List (Except String Batch))
    (epoch : ℕ) (best : ℚ) : Except String (ℚ × EpochInfo) :=
  match trainPhase cuda tbs PhaseAcc.init with
  | .error e => .error e
  | .ok (tAcc, tEvs) =>
    match valPhase cuda vbs PhaseAcc.init with
    | .error e => .error e
    | .ok (vAcc, vEvs) =>
      let val_acc : ℚ := 100 * vAcc.correct / vAcc.total
      let trainLossLogged : ℚ := tAcc.loss / tbs.length
      let trainAccLogged : ℚ := 100 * tAcc.correct / tAcc.total
      let valLossLogged : ℚ := vAcc.loss / vbs.length
      let baseEvs : List Ev := tEvs ++ vEvs ++
        [.schedStep val_acc, .logLR,
         .logMetrics trainLossLogged trainAccLogged valLossLogged val_acc]
      if val_acc > best then
        .ok (val_acc, ⟨tAcc, vAcc, val_acc, true,
          baseEvs ++ [.saveCheckpoint epoch valLossLogged val_acc,
                      .logBestSaved val_acc]⟩)
      else
        .ok (best, ⟨tAcc, vAcc, val_acc, false, baseEvs⟩)

/-- The `for epoch in range(config['num_epochs'])` loop, starting at index
`epoch` with `remaining` iterations left and current `best_val_acc`. -/
def runLoop (cuda : Bool) (tbs vbs : ℕ → List (Except String Batch)) :
    ℕ → ℕ → ℚ → Except String (ℚ × List EpochInfo)
  | _, 0, best => .ok (best, [])
  | epoch, remaining + 1, best =>
    match runEpoch cuda (tbs epoch) (vbs epoch) epoch best with
    | .error e => .error e
    | .ok (best', info) =>
      match runLoop cuda tbs vbs (epoch + 1) remaining best' with
      | .error e => .error e
      | .ok (bestF, infos) => .ok (bestF, info :: infos)

/-- The static in-memory configuration read by the script (lines 176-184):
exactly the data/log/checkpoint directories, batch size, learning rate,
weight decay and epoch count. -/
structure Config where
  data_dir : String
  log_dir : String
  checkpoint_dir : String
  batch_size : ℕ
  learning_rate : ℚ
  weight_decay : ℚ
  num_epochs : ℕ
deriving Repr, DecidableEq

/-- The external world as seen by `train`: platform facts and the behaviour
of the dataset constructors and of the two dataloaders in each epoch. -/
structure Env where
  cuda_available : Bool
  os_is_nt : Bool
  cpu_count : ℕ
  train_dataset : Except String Unit
  val_dataset : Except String Unit
  trainBatches : ℕ → List (Except String Batch)
  valBatches : ℕ → List (Except String Batch)

/-- Line 46: `2 if os.name == 'nt' else min(os.cpu_count(), 4)`. -/
def numWorkers (os_is_nt : Bool) (cpu_count : ℕ) : ℕ :=
  if os_is_nt then 2 else min cpu_count 4

/-- The keyword arguments a dataloader is built with (lines 44-57). -/
structure DataLoaderConfig where
  batch_size : ℕ
  num_workers : ℕ
  pin_memory : Bool
  shuffle : Bool
deriving Repr, DecidableEq

/-- Lines 44-53: the training loader's configuration (`shuffle=True`). -/
def trainLoaderConfig (cfg : Config) (env : Env) : DataLoaderConfig :=
  ⟨cfg.batch_size, numWorkers env.os_is_nt env.cpu_count, env.cuda_available, true⟩

/-- Lines 44-48 and 54-57: the validation loader's configuration
(`shuffle=False`). -/
def valLoaderConfig (cfg : Config) (env : Env) : DataLoaderConfig :=
  ⟨cfg.batch_size, numWorkers env.os_is_nt env.cpu_count, env.cuda_available, false⟩

/-- Line 69: `torch.amp.GradScaler(enabled=cuda_available)`. -/
structure GradScaler where
  enabled : Bool
deriving Repr, DecidableEq

def makeScaler (cuda_available : Bool) : GradScaler := ⟨cuda_available⟩

/-- `optim.lr_scheduler.ReduceLROnPlateau(optimizer, mode, factor, patience)`. -/
structure SchedulerConfig where
  maximize : Bool
  factor : ℚ
  patience : ℕ
deriving Repr, DecidableEq

/-- Lines 80-82: the scheduler is constructed with `mode='max'`,
`factor=0.1`, `patience=5`. -/
def schedulerConfig : SchedulerConfig := ⟨true, 1/10, 5⟩

/-- Outcome of a `train(config)` call that did not itself raise. -/
inductive TrainResult where
  | aborted (errorLog : String)
  | completed (best_val_acc : ℚ) (epochs : List EpochInfo)
deriving Repr, DecidableEq

/-- Lines 15-173, `def train(config)`: construct the two datasets inside
`try/except` (a failure is logged and `train` returns), then run the epoch
loop with `best_val_acc = 0.0`.  Whatever raises after dataset
construction has no handler, so it propagates as `Except.error`. -/
def train (cfg : Config) (env : Env) : Except String TrainResult :=
  match env.train_dataset with
  | .error e => .ok (.aborted ("Error creating datasets: " ++ e))
  | .ok _ =>
    match env.val_dataset with
    | .error e => .ok (.aborted ("Error creating datasets: " ++ e))
    | .ok _ =>
      match runLoop env.cuda_available env.trainBatches env.valBatches
          0 cfg.num_epochs 0 with
      | .error e => .error e
      | .ok (best, infos) => .ok (.completed best infos)

/-- One `os.makedirs(dir, exist_ok=...)` call. -/
structure MakeDirsCall where
  dir : String
  exist_ok : Bool
deriving Repr, DecidableEq

/-- Lines 176-184: the literal configuration of the `__main__` block. -/
def mainConfig : Config :=
  ⟨"../data/split_images", "../logs", "../checkpoints", 64, 1/10000, 1/100000, 50⟩

/-- Lines 187-188: the directory creations performed before `train` runs,
in order, both with `exist_ok=True`. -/
def mainMakeDirs : List MakeDirsCall :=
  [⟨mainConfig.log_dir, true⟩, ⟨mainConfig.checkpoint_dir, true⟩]

/-- A concrete batch used to exercise the definitions: loss 1, two samples,
one of them predicted correctly. -/
def sampleBatch : Batch := ⟨1, [(0, 0), (1, 2)]⟩

def sampleAcc : PhaseAcc := ⟨1, 1, 2⟩

/-- The trace of one CPU epoch over a single `sampleBatch` in each loader,
starting from `best_val_acc = 0`. -/
def sampleEpochEvents : List Ev :=
  [.zeroGrad, .forward false, .backward false, .optStep false,
   .valForward false true, .schedStep 50, .logLR, .logMetrics 1 50 1 50,
   .saveCheckpoint 0 1 50, .logBestSaved 50]

def sampleEpochInfo : EpochInfo := ⟨sampleAcc, sampleAcc, 50, true, sampleEpochEvents⟩

/-- A CPU environment whose loaders yield one `sampleBatch` per epoch. -/
def sampleEnv : Env :=
  ⟨false, false, 8, .ok (), .ok (), fun _ => [.ok sampleBatch], fun _ => [.ok sampleBatch]⟩

/-- An environment whose training-dataset construction raises `"boom"`. -/
def envBadTrainDS : Env :=
  ⟨false, false, 8, .error "boom", .ok (), fun _ => [], fun _ => []⟩

/-- An environment whose validation-dataset construction raises `"boom"`. -/
def envBadValDS : Env :=
  ⟨false, false, 8, .ok (), .error "boom", fun _ => [], fun _ => []⟩

/-- An environment whose datasets construct fine but whose first training
batch raises `"cuda oom"`. -/
def envBatchFail : Env :=
  ⟨false, false, 8, .ok (), .ok (), fun _ => [.error "cuda oom"], fun _ => []⟩

def cfgZeroEpochs : Config := ⟨"d", "l", "c", 1, 1, 1, 0⟩

def cfgOneEpoch : Config := ⟨"d", "l", "c", 1, 1, 1, 1⟩

/-! ### Helper lemmas -/

lemma trainPhase_map_ok (cuda : Bool) (bs : List Batch) (acc : PhaseAcc) :
    trainPhase cuda (bs.map Except.ok) acc =
      .ok (bs.foldl PhaseAcc.add acc,
           (List.replicate bs.length (trainBatchEvents cuda)).flatten) := by
  induction bs generalizing acc with
  | nil => simp [trainPhase]
  | cons b rest ih => simp [trainPhase, ih, List.replicate_succ]

lemma valPhase_map_ok (cuda : Bool) (cs : List Batch) (acc : PhaseAcc) :
    valPhase cuda (cs.map Except.ok) acc =
      .ok (cs.foldl PhaseAcc.add acc,
           (List.replicate cs.length (valBatchEvents cuda)).flatten) := by
  induction cs generalizing acc with
  | nil => simp [valPhase]
  | cons b rest ih => simp [valPhase, ih, List.replicate_succ]

lemma trainPhase_ok_exists {cuda : Bool} {l : List (Except String Batch)}
    {acc a : PhaseAcc} {evs : List Ev}
    (h : trainPhase cuda l acc = .ok (a, evs)) :
    ∃ bs : List Batch, l = bs.map Except.ok := by
  induction l generalizing acc a evs with
  | nil => exact ⟨[], rfl⟩
  | cons x rest ih =>
    match x with
    | .error e => simp [trainPhase] at h
    | .ok b =>
      rw [trainPhase] at h
      cases h' : trainPhase cuda rest (acc.add b) with
      | error e => rw [h'] at h; cases h
      | ok p =>
        obtain ⟨bs, rfl⟩ := ih h'
        exact ⟨b :: bs, rfl⟩

lemma valPhase_ok_exists {cuda : Bool} {l : List (Except String Batch)}
    {acc a : PhaseAcc} {evs : List Ev}
    (h : valPhase cuda l acc = .ok (a, evs)) :
    ∃ cs : List Batch, l = cs.map Except.ok := by
  induction l generalizing acc a evs with
  | nil => exact ⟨[], rfl⟩
  | cons x rest ih =>
    match x with
    | .error e => simp [valPhase] at h
    | .ok b =>
      rw [valPhase] at h
      cases h' : valPhase cuda rest (acc.add b) with
      | error e => rw [h'] at h; cases h
      | ok p =>
        obtain ⟨cs, rfl⟩ := ih h'
        exact ⟨b :: cs, rfl⟩

lemma trainPhase_ok_destruct {cuda : Bool} {l : List (Except String Batch)}
    {acc a : PhaseAcc} {evs : List Ev}
    (h : trainPhase cuda l acc = .ok (a, evs)) :
    ∃ bs : List Batch, l = bs.map Except.ok ∧ a = bs.foldl PhaseAcc.add acc ∧
      evs = (List.replicate bs.length (trainBatchEvents cuda)).flatten := by
  obtain ⟨bs, rfl⟩ := trainPhase_ok_exists h
  rw [trainPhase_map_ok] at h
  exact ⟨bs, rfl, by cases h; exact ⟨rfl, rfl⟩⟩

lemma valPhase_ok_destruct {cuda : Bool} {l : List (Except String Batch)}
    {acc a : PhaseAcc} {evs : List Ev}
    (h : valPhase cuda l acc = .ok (a, evs)) :
    ∃ cs : List Batch, l = cs.map Except.ok ∧ a = cs.foldl PhaseAcc.add acc ∧
      evs = (List.replicate cs.length (valBatchEvents cuda)).flatten := by
  obtain ⟨cs, rfl⟩ := valPhase_ok_exists h
  rw [valPhase_map_ok] at h
  exact ⟨cs, rfl, by cases h; exact ⟨rfl, rfl⟩⟩

lemma foldl_add_loss (bs : List Batch) (a : PhaseAcc) :
    (bs.foldl PhaseAcc.add a).loss = a.loss + (bs.map Batch.loss).sum := by
  induction bs generalizing a with
  | nil => simp
  | cons b rest ih => simp [ih, PhaseAcc.add, add_assoc]

lemma foldl_add_correct (bs : List Batch) (a : PhaseAcc) :
    (bs.foldl PhaseAcc.add a).correct = a.correct + (bs.map Batch.correct).sum := by
  induction bs generalizing a with
  | nil => simp
  | cons b rest ih => simp [ih, PhaseAcc.add, Nat.add_assoc]

lemma foldl_add_total (bs : List Batch) (a : PhaseAcc) :
    (bs.foldl PhaseAcc.add a).total = a.total + (bs.map Batch.size).sum := by
  induction bs generalizing a with
  | nil => simp
  | cons b rest ih => simp [ih, PhaseAcc.add, Nat.add_assoc]

lemma runEpoch_ok_destruct {cuda : Bool} {tbs vbs : List (Except String Batch)}
    {ep : ℕ} {best best' : ℚ} {info : EpochInfo}
    (h : runEpoch cuda tbs vbs ep best = .ok (best', info)) :
    ∃ bs cs : List Batch,
      tbs = bs.map Except.ok ∧ vbs = cs.map Except.ok ∧
      info.trainAcc = bs.foldl PhaseAcc.add PhaseAcc.init ∧
      info.valPhaseAcc = cs.foldl PhaseAcc.add PhaseAcc.init ∧
      info.val_acc = 100 * (info.valPhaseAcc.correct : ℚ) / (info.valPhaseAcc.total : ℚ) ∧
      best' = max best info.val_acc ∧
      info.saved = decide (best < info.val_acc) ∧
      info.events =
        (List.replicate bs.length (trainBatchEvents cuda)).flatten ++
        (List.replicate cs.length (valBatchEvents cuda)).flatten ++
        [Ev.schedStep info.val_acc, Ev.logLR,
         Ev.logMetrics (info.trainAcc.loss / (bs.length : ℚ))
           (100 * (info.trainAcc.correct : ℚ) / (info.trainAcc.total : ℚ))
           (info.valPhaseAcc.loss / (cs.length : ℚ)) info.val_acc] ++
        (if best < info.val_acc
          then [Ev.saveCheckpoint ep (info.valPhaseAcc.loss / (cs.length : ℚ)) info.val_acc,
                Ev.logBestSaved info.val_acc]
          else []) := by
  unfold runEpoch at h
  split at h
  · cases h
  next tAcc tEvs heqT =>
  split at h
  · cases h
  next vAcc vEvs heqV =>
  obtain ⟨bs, rfl, hta, hte⟩ := trainPhase_ok_destruct heqT
  obtain ⟨cs, rfl, hva, hve⟩ := valPhase_ok_destruct heqV
  refine ⟨bs, cs, rfl, rfl, ?_⟩
  simp only [gt_iff_lt] at h
  split at h
  next hlt =>
    cases h
    subst hta hva hte hve
    simp only [List.length_map]
    exact ⟨trivial, trivial, trivial, (max_eq_right (le_of_lt hlt)).symm,
      by simp [hlt], by simp [hlt, List.append_assoc]⟩
  next hge =>
    cases h
    subst hta hva hte hve
    simp only [List.length_map]
    exact ⟨trivial, trivial, trivial, (max_eq_left (not_lt.mp hge)).symm,
      by simp [hge], by simp [hge, List.append_assoc]⟩

lemma le_foldl_max (l : List ℚ) (b : ℚ) : b ≤ l.foldl max b := by
  induction l generalizing b with
  | nil => simp
  | cons x xs ih =>
    simp only [List.foldl_cons]
    exact le_trans (le_max_left b x) (ih (max b x))

lemma foldl_max_take_mono (l : List ℚ) (b : ℚ) (k : ℕ) :
    (l.take k).foldl max b ≤ (l.take (k + 1)).foldl max b := by
  by_cases hk : k < l.length
  · rw [List.take_succ, List.getElem?_eq_getElem hk]
    simp only [Option.toList_some, List.foldl_append, List.foldl_cons, List.foldl_nil]
    exact le_max_left _ _
  · rw [List.take_of_length_le (by omega), List.take_of_length_le (by omega)]

lemma runLoop_ok_destruct {cuda : Bool} {tbs vbs : ℕ → List (Except String Batch)} :
    ∀ {r e0 : ℕ} {best bestF : ℚ} {infos : List EpochInfo},
      runLoop cuda tbs vbs e0 r best = .ok (bestF, infos) →
      infos.length = r ∧
      bestF = (infos.map EpochInfo.val_acc).foldl max best ∧
      ∀ k (hk : k < infos.length),
        runEpoch cuda (tbs (e0 + k)) (vbs (e0 + k)) (e0 + k)
          (((infos.take k).map EpochInfo.val_acc).foldl max best) =
        .ok (((infos.take (k + 1)).map EpochInfo.val_acc).foldl max best,
             infos.get ⟨k, hk⟩) := by
  intro r
  induction r with
  | zero =>
    intro e0 best bestF infos h
    simp only [runLoop] at h
    cases h
    exact ⟨rfl, by simp, fun k hk => absurd hk (by simp)⟩
  | succ n ih =>
    intro e0 best bestF infos h
    simp only [runLoop] at h
    split at h
    · cases h
    next best' info heq1 =>
    split at h
    · cases h
    next bF rest heq2 =>
    cases h
    obtain ⟨hlen, hbF, hidx⟩ := ih heq2
    obtain ⟨bs, cs, _, _, _, _, _, hmax, _, _⟩ := runEpoch_ok_destruct heq1
    refine ⟨by simp [hlen], ?_, ?_⟩
    · rw [hbF, hmax]
      simp [List.foldl_cons]
    · intro k hk
      cases k with
      | zero =>
        rw [hmax] at heq1
        simpa using heq1
      | succ k =>
        have hk' : k < rest.length := by simpa using hk
        have hstep := hidx k hk'
        have harith : e0 + (k + 1) = e0 + 1 + k := by omega
        simp only [harith, List.take_succ_cons, List.map_cons, List.foldl_cons,
          List.get_cons_succ, ← hmax]
        exact hstep

lemma mem_flatten_replicate {e : Ev} {n : ℕ} {l : List Ev} :
    e ∈ (List.replicate n l).flatten ↔ (0 < n ∧ e ∈ l) := by
  simp only [List.mem_flatten, List.mem_replicate]
  constructor
  · rintro ⟨s, ⟨hn, rfl⟩, hmem⟩
    exact ⟨Nat.pos_of_ne_zero hn, hmem⟩
  · rintro ⟨hn, hmem⟩
    exact ⟨l, ⟨by omega, rfl⟩, hmem⟩

lemma train_completed_destruct {cfg : Config} {env : Env} {best : ℚ}
    {infos : List EpochInfo}
    (h : train cfg env = .ok (.completed best infos)) :
    env.train_dataset = .ok () ∧ env.val_dataset = .ok () ∧
      runLoop env.cuda_available env.trainBatches env.valBatches
        0 cfg.num_epochs 0 = .ok (best, infos) := by
  unfold train at h
  split at h
  · simp at h
  next u hT =>
  split at h
  · simp at h
  next v hV =>
  split at h
  · cases h
  next b is hL =>
  cases h
  exact ⟨hT, hV, hL⟩

lemma trainPhase_append_error (cuda : Bool) (bs : List Batch) (e : String)
    (rest : List (Except String Batch)) (acc : PhaseAcc) :
    trainPhase cuda (bs.map Except.ok ++ .error e :: rest) acc = .error e := by
  induction bs generalizing acc with
  | nil => simp [trainPhase]
  | cons b bsr ih => simp [trainPhase, ih]

lemma valPhase_append_error (cuda : Bool) (cs : List Batch) (e : String)
    (rest : List (Except String Batch)) (acc : PhaseAcc) :
    valPhase cuda (cs.map Except.ok ++ .error e :: rest) acc = .error e := by
  induction cs generalizing acc with
  | nil => simp [valPhase]
  | cons b csr ih => simp [valPhase, ih]

lemma runEpoch_error_train {cuda : Bool} {tbs vbs : List (Except String Batch)}
    {ep : ℕ} {best : ℚ} {e : String}
    (h : trainPhase cuda tbs PhaseAcc.init = .error e) :
    runEpoch cuda tbs vbs ep best = .error e := by
  unfold runEpoch
  rw [h]

lemma runEpoch_error_val {cuda : Bool} {tbs vbs : List (Except String Batch)}
    {ep : ℕ} {best : ℚ} {e : String} {p : PhaseAcc × List Ev}
    (ht : trainPhase cuda tbs PhaseAcc.init = .ok p)
    (hv : valPhase cuda vbs PhaseAcc.init = .error e) :
    runEpoch cuda tbs vbs ep best = .error e := by
  obtain ⟨a, evs⟩ := p
  unfold runEpoch
  rw [ht, hv]

lemma runLoop_error_head {cuda : Bool} {tbs vbs : ℕ → List (Except String Batch)}
    {e0 n : ℕ} {best : ℚ} {e : String}
    (h : runEpoch cuda (tbs e0) (vbs e0) e0 best = .error e) :
    runLoop cuda tbs vbs e0 (n + 1) best = .error e := by
  simp [runLoop, h]

lemma train_abort_train_ds {cfg : Config} {env : Env} {e : String}
    (h : env.train_dataset = .error e) :
    train cfg env = .ok (.aborted ("Error creating datasets: " ++ e)) := by
  simp [train, h]

lemma train_abort_val_ds {cfg : Config} {env : Env} {e : String}
    (h1 : env.train_dataset = .ok ()) (h : env.val_dataset = .error e) :
    train cfg env = .ok (.aborted ("Error creating datasets: " ++ e)) := by
  simp [train, h1, h]

lemma train_propagates_loop_error {cfg : Config} {env : Env} {e : String}
    (h1 : env.train_dataset = .ok ()) (h2 : env.val_dataset = .ok ())
    (h3 : runLoop env.cuda_available env.trainBatches env.valBatches
      0 cfg.num_epochs 0 = .error e) :
    train cfg env = .error e := by
  simp [train, h1, h2, h3]

lemma saveCheckpoint_not_mem_trainBatchEvents (cuda : Bool) (ep : ℕ) (l a : ℚ) :
    Ev.saveCheckpoint ep l a ∉ trainBatchEvents cuda := by
  cases cuda <;> simp [trainBatchEvents]

lemma saveCheckpoint_not_mem_valBatchEvents (cuda : Bool) (ep : ℕ) (l a : ℚ) :
    Ev.saveCheckpoint ep l a ∉ valBatchEvents cuda := by
  simp [valBatchEvents]

/-! ### Claims -/

/-- C1: a checkpoint is saved at the end of an epoch when, and only when,
that epoch's validation accuracy strictly improves on the best validation
accuracy seen so far; saving updates the recorded best (`best_val_acc`
becomes the new accuracy, otherwise it is unchanged); and in a completed
training run the first epoch is compared against the initial best of 0.0,
so model selection is by validation accuracy. -/
theorem C1_checkpoint_saved_iff_val_acc_improves :
    (∀ (cuda : Bool) (tbs vbs : List (Except String Batch)) (ep : ℕ)
        (best best' : ℚ) (info : EpochInfo),
      runEpoch cuda tbs vbs ep best = .ok (best', info) →
        ((∃ l a, Ev.saveCheckpoint ep l a ∈ info.events) ↔ best < info.val_acc) ∧
        (info.saved = true ↔ best < info.val_acc) ∧
        best' = (if best < info.val_acc then info.val_acc else best)) ∧
    (∀ (cfg : Config) (env : Env) (b : ℚ) (infos : List EpochInfo),
      train cfg env = .ok (.completed b infos) →
      ∀ h0 : 0 < infos.length,
        ((infos.get ⟨0, h0⟩).saved = true ↔ 0 < (infos.get ⟨0, h0⟩).val_acc)) := by
  constructor
  · intro cuda tbs vbs ep best best' info h
    obtain ⟨bs, cs, -, -, -, -, -, hmax, hsaved, hev⟩ := runEpoch_ok_destruct h
    refine ⟨?_, by simp [hsaved], ?_⟩
    · constructor
      · rintro ⟨l, a, hmem⟩
        by_cases hbv : best < info.val_acc
        · exact hbv
        · exfalso
          rw [hev, if_neg hbv] at hmem
          simp only [List.append_nil, List.mem_append, mem_flatten_replicate,
            List.mem_cons, List.not_mem_nil] at hmem
          rcases hmem with (⟨-, hm⟩ | ⟨-, hm⟩) | hm
          · exact saveCheckpoint_not_mem_trainBatchEvents cuda ep l a hm
          · exact saveCheckpoint_not_mem_valBatchEvents cuda ep l a hm
          · simp at hm
      · intro hbv
        refine ⟨info.valPhaseAcc.loss / (cs.length : ℚ), info.val_acc, ?_⟩
        rw [hev, if_pos hbv]
        simp
    · rw [hmax]
      by_cases hbv : best < info.val_acc
      · rw [if_pos hbv]
        exact max_eq_right hbv.le
      · rw [if_neg hbv]
        exact max_eq_left (not_lt.mp hbv)
  · intro cfg env b infos h h0
    obtain ⟨-, -, hL⟩ := train_completed_destruct h
    obtain ⟨-, -, hidx⟩ := runLoop_ok_destruct hL
    have h00 := hidx 0 h0
    simp only [List.take_zero, List.map_nil, List.foldl_nil, Nat.add_zero] at h00
    obtain ⟨bs, cs, -, -, -, -, -, -, hsaved, -⟩ := runEpoch_ok_destruct h00
    simp only [List.get_eq_getElem] at hsaved
    simp [hsaved]

/-- Witness for C1 at a concrete one-batch CPU epoch. -/
theorem C1_witness :
    ((∃ l a, Ev.saveCheckpoint 0 l a ∈ sampleEpochInfo.events) ↔
      (0 : ℚ) < sampleEpochInfo.val_acc) ∧
    (sampleEpochInfo.saved = true ↔ (0 : ℚ) < sampleEpochInfo.val_acc) ∧
    (50 : ℚ) = (if (0 : ℚ) < sampleEpochInfo.val_acc then sampleEpochInfo.val_acc else 0) :=
  C1_checkpoint_saved_iff_val_acc_improves.1 false [.ok sampleBatch] [.ok sampleBatch]
    0 0 50 sampleEpochInfo (by
      norm_num [runEpoch, trainPhase, valPhase, trainBatchEvents, valBatchEvents,
        sampleBatch, sampleEpochInfo, sampleAcc, sampleEpochEvents,
        PhaseAcc.init, PhaseAcc.add, Batch.size, Batch.correct])

/-- C2: if constructing either dataset raises, `train` catches it, logs
`"Error creating datasets: ..."` and returns immediately (the result is
`.aborted`, which carries no epochs, checkpoints or model construction);
a failure raised by either loader during the epoch loop propagates to the
caller as an uncaught `Except.error`. -/
theorem C2_dataset_errors_caught_others_propagate :
    (∀ (cfg : Config) (env : Env) (e : String),
      env.train_dataset = .error e →
        train cfg env = .ok (.aborted ("Error creating datasets: " ++ e))) ∧
    (∀ (cfg : Config) (env : Env) (e : String),
      env.train_dataset = .ok () → env.val_dataset = .error e →
        train cfg env = .ok (.aborted ("Error creating datasets: " ++ e))) ∧
    (∀ (cfg : Config) (env : Env) (e : String),
      env.train_dataset = .ok () → env.val_dataset = .ok () →
      runLoop env.cuda_available env.trainBatches env.valBatches
        0 cfg.num_epochs 0 = .error e →
      train cfg env = .error e) ∧
    (∀ (cuda : Bool) (bs : List Batch) (e : String)
        (rest vbs : List (Except String Batch)) (ep : ℕ) (best : ℚ),
      runEpoch cuda (bs.map Except.ok ++ .error e :: rest) vbs ep best = .error e) ∧
    (∀ (cuda : Bool) (bs cs : List Batch) (e : String)
        (rest : List (Except String Batch)) (ep : ℕ) (best : ℚ),
      runEpoch cuda (bs.map Except.ok) (cs.map Except.ok ++ .error e :: rest)
        ep best = .error e) := by
  refine ⟨?_, ?_, ?_, ?_, ?_⟩
  · intro cfg env e h
    exact train_abort_train_ds h
  · intro cfg env e h1 h
    exact train_abort_val_ds h1 h
  · intro cfg env e h1 h2 h3
    exact train_propagates_loop_error h1 h2 h3
  · intro cuda bs e rest vbs ep best
    exact runEpoch_error_train (trainPhase_append_error cuda bs e rest PhaseAcc.init)
  · intro cuda bs cs e rest ep best
    exact runEpoch_error_val (trainPhase_map_ok cuda bs PhaseAcc.init)
      (valPhase_append_error cuda cs e rest PhaseAcc.init)

/-- Witness for C2: a failing training-dataset constructor aborts the run
with the logged message. -/
theorem C2_witness :
    train cfgOneEpoch envBadTrainDS = .ok (.aborted ("Error creating datasets: " ++ "boom")) :=
  C2_dataset_errors_caught_others_propagate.1 cfgOneEpoch envBadTrainDS "boom" rfl

/-- C3: a successful epoch processes, in this order: every training batch
(each one performing zero-grad, forward/loss, backward, optimizer step, with
the accumulators folded over all batches), then every validation batch with
gradients disabled, then the scheduler step, then logging, then possibly the
best-model checkpoint. -/
theorem C3_epoch_phase_order :
    ∀ (cuda : Bool) (tbs vbs : List (Except String Batch)) (ep : ℕ)
      (best best' : ℚ) (info : EpochInfo),
      runEpoch cuda tbs vbs ep best = .ok (best', info) →
      ∃ (bs cs : List Batch) (ckpt : List Ev),
        tbs = bs.map Except.ok ∧ vbs = cs.map Except.ok ∧
        info.events =
          (List.replicate bs.length (trainBatchEvents cuda)).flatten ++
          (List.replicate cs.length (valBatchEvents cuda)).flatten ++
          [Ev.schedStep info.val_acc, Ev.logLR,
           Ev.logMetrics (info.trainAcc.loss / (bs.length : ℚ))
             (100 * (info.trainAcc.correct : ℚ) / (info.trainAcc.total : ℚ))
             (info.valPhaseAcc.loss / (cs.length : ℚ)) info.val_acc] ++ ckpt ∧
        info.trainAcc = bs.foldl PhaseAcc.add PhaseAcc.init ∧
        info.valPhaseAcc = cs.foldl PhaseAcc.add PhaseAcc.init ∧
        (ckpt = [] ∨
          ckpt = [Ev.saveCheckpoint ep (info.valPhaseAcc.loss / (cs.length : ℚ)) info.val_acc,
                  Ev.logBestSaved info.val_acc]) ∧
        trainBatchEvents true =
          [.zeroGrad, .forward true, .backward true, .optStep true, .scalerUpdate] ∧
        trainBatchEvents false =
          [.zeroGrad, .forward false, .backward false, .optStep false] ∧
        valBatchEvents cuda = [.valForward cuda true] := by
  intro cuda tbs vbs ep best best' info h
  obtain ⟨bs, cs, h1, h2, h3, h4, -, -, -, hev⟩ := runEpoch_ok_destruct h
  refine ⟨bs, cs, _, h1, h2, hev, h3, h4, ?_, rfl, rfl, rfl⟩
  by_cases hbv : best < info.val_acc
  · right
    rw [if_pos hbv]
  · left
    rw [if_neg hbv]

/-- Witness for C3 at a concrete one-batch CPU epoch. -/
theorem C3_witness :
    ∃ (bs cs : List Batch) (ckpt : List Ev),
      ([Except.ok sampleBatch] : List (Except String Batch)) = bs.map Except.ok ∧
      ([Except.ok sampleBatch] : List (Except String Batch)) = cs.map Except.ok ∧
      sampleEpochInfo.events =
        (List.replicate bs.length (trainBatchEvents false)).flatten ++
        (List.replicate cs.length (valBatchEvents false)).flatten ++
        [Ev.schedStep sampleEpochInfo.val_acc, Ev.logLR,
         Ev.logMetrics (sampleEpochInfo.trainAcc.loss / (bs.length : ℚ))
           (100 * (sampleEpochInfo.trainAcc.correct : ℚ) / (sampleEpochInfo.trainAcc.total : ℚ))
           (sampleEpochInfo.valPhaseAcc.loss / (cs.length : ℚ)) sampleEpochInfo.val_acc] ++
        ckpt ∧
      sampleEpochInfo.trainAcc = bs.foldl PhaseAcc.add PhaseAcc.init ∧
      sampleEpochInfo.valPhaseAcc = cs.foldl PhaseAcc.add PhaseAcc.init ∧
      (ckpt = [] ∨
        ckpt = [Ev.saveCheckpoint 0 (sampleEpochInfo.valPhaseAcc.loss / (cs.length : ℚ))
                  sampleEpochInfo.val_acc,
                Ev.logBestSaved sampleEpochInfo.val_acc]) ∧
      trainBatchEvents true =
        [.zeroGrad, .forward true, .backward true, .optStep true, .scalerUpdate] ∧
      trainBatchEvents false =
        [.zeroGrad, .forward false, .backward false, .optStep false] ∧
      valBatchEvents false = [.valForward false true] :=
  C3_epoch_phase_order false [.ok sampleBatch] [.ok sampleBatch] 0 0 50 sampleEpochInfo (by
    norm_num [runEpoch, trainPhase, valPhase, trainBatchEvents, valBatchEvents,
      sampleBatch, sampleEpochInfo, sampleAcc, sampleEpochEvents,
      PhaseAcc.init, PhaseAcc.add, Batch.size, Batch.correct])

/-- C4: the gradient scaler is enabled exactly when CUDA is available, and
in a successful epoch every training forward pass runs under autocast, every
backward pass and optimizer step through the scaler, and every validation
forward pass under autocast, exactly when CUDA is available; `scaler.update`
occurs exactly when CUDA is available and the training loader is nonempty.
When CUDA is unavailable all of these are the regular full-precision
operations. -/
theorem C4_mixed_precision_iff_cuda :
    ∀ (cuda : Bool) (tbs vbs : List (Except String Batch)) (ep : ℕ)
      (best best' : ℚ) (info : EpochInfo),
      runEpoch cuda tbs vbs ep best = .ok (best', info) →
        (makeScaler cuda).enabled = cuda ∧
        (∀ ac, Ev.forward ac ∈ info.events → ac = cuda) ∧
        (∀ sc, Ev.backward sc ∈ info.events → sc = cuda) ∧
        (∀ sc, Ev.optStep sc ∈ info.events → sc = cuda) ∧
        (∀ ac ng, Ev.valForward ac ng ∈ info.events → ac = cuda ∧ ng = true) ∧
        (Ev.scalerUpdate ∈ info.events ↔ (cuda = true ∧ tbs ≠ [])) := by
  intro cuda tbs vbs ep best best' info h
  obtain ⟨bs, cs, h1, h2, -, -, -, -, -, hev⟩ := runEpoch_ok_destruct h
  refine ⟨rfl, ?_, ?_, ?_, ?_, ?_⟩
  · intro ac hmem
    rw [hev] at hmem
    simp only [List.mem_append] at hmem
    rcases hmem with (((hm | hm) | hm) | hm)
    · have := (mem_flatten_replicate.mp hm).2
      cases cuda <;> simp_all [trainBatchEvents]
    · have := (mem_flatten_replicate.mp hm).2
      simp_all [valBatchEvents]
    · simp_all
    · revert hm
      split <;> simp
  · intro sc hmem
    rw [hev] at hmem
    simp only [List.mem_append] at hmem
    rcases hmem with (((hm | hm) | hm) | hm)
    · have := (mem_flatten_replicate.mp hm).2
      cases cuda <;> simp_all [trainBatchEvents]
    · have := (mem_flatten_replicate.mp hm).2
      simp_all [valBatchEvents]
    · simp_all
    · revert hm
      split <;> simp
  · intro sc hmem
    rw [hev] at hmem
    simp only [List.mem_append] at hmem
    rcases hmem with (((hm | hm) | hm) | hm)
    · have := (mem_flatten_replicate.mp hm).2
      cases cuda <;> simp_all [trainBatchEvents]
    · have := (mem_flatten_replicate.mp hm).2
      simp_all [valBatchEvents]
    · simp_all
    · revert hm
      split <;> simp
  · intro ac ng hmem
    rw [hev] at hmem
    simp only [List.mem_append] at hmem
    rcases hmem with (((hm | hm) | hm) | hm)
    · have := (mem_flatten_replicate.mp hm).2
      cases cuda <;> simp_all [trainBatchEvents]
    · have := (mem_flatten_replicate.mp hm).2
      simp_all [valBatchEvents]
    · simp_all
    · revert hm
      split <;> simp
  · constructor
    · intro hmem
      rw [hev] at hmem
      simp only [List.mem_append] at hmem
      rcases hmem with (((hm | hm) | hm) | hm)
      · obtain ⟨hpos, hm'⟩ := mem_flatten_replicate.mp hm
        cases cuda with
        | false => simp [trainBatchEvents] at hm'
        | true =>
          refine ⟨rfl, ?_⟩
          rw [h1]
          simp only [ne_eq, List.map_eq_nil_iff]
          intro hnil
          rw [hnil] at hpos
          simp at hpos
      · exfalso
        have := (mem_flatten_replicate.mp hm).2
        simp [valBatchEvents] at this
      · exfalso
        simp at hm
      · exfalso
        revert hm
        split <;> simp
    · rintro ⟨hcuda, htbs⟩
      subst hcuda
      rw [hev]
      simp only [List.mem_append]
      refine Or.inl (Or.inl (Or.inl ?_))
      apply mem_flatten_replicate.mpr
      refine ⟨?_, by simp [trainBatchEvents]⟩
      rw [h1] at htbs
      simp only [ne_eq, List.map_eq_nil_iff] at htbs
      exact List.length_pos.mpr htbs

/-- Witness for C4 at a concrete one-batch CPU epoch. -/
theorem C4_witness :
    (makeScaler false).enabled = false ∧
    (∀ ac, Ev.forward ac ∈ sampleEpochInfo.events → ac = false) ∧
    (∀ sc, Ev.backward sc ∈ sampleEpochInfo.events → sc = false) ∧
    (∀ sc, Ev.optStep sc ∈ sampleEpochInfo.events → sc = false) ∧
    (∀ ac ng, Ev.valForward ac ng ∈ sampleEpochInfo.events → ac = false ∧ ng = true) ∧
    (Ev.scalerUpdate ∈ sampleEpochInfo.events ↔
      (false = true ∧ ([Except.ok sampleBatch] : List (Except String Batch)) ≠ [])) :=
  C4_mixed_precision_iff_cuda false [.ok sampleBatch] [.ok sampleBatch] 0 0 50
    sampleEpochInfo (by
      norm_num [runEpoch, trainPhase, valPhase, trainBatchEvents, valBatchEvents,
        sampleBatch, sampleEpochInfo, sampleAcc, sampleEpochEvents,
        PhaseAcc.init, PhaseAcc.add, Batch.size, Batch.correct])

lemma schedStep_not_mem_trainBatchEvents (cuda : Bool) (m : ℚ) :
    Ev.schedStep m ∉ trainBatchEvents cuda := by
  cases cuda <;> simp [trainBatchEvents]

lemma schedStep_not_mem_valBatchEvents (cuda : Bool) (m : ℚ) :
    Ev.schedStep m ∉ valBatchEvents cuda := by
  simp [valBatchEvents]

lemma logMetrics_not_mem_trainBatchEvents (cuda : Bool) (a b c d : ℚ) :
    Ev.logMetrics a b c d ∉ trainBatchEvents cuda := by
  cases cuda <;> simp [trainBatchEvents]

lemma logMetrics_not_mem_valBatchEvents (cuda : Bool) (a b c d : ℚ) :
    Ev.logMetrics a b c d ∉ valBatchEvents cuda := by
  simp [valBatchEvents]

lemma logLR_not_mem_trainBatchEvents (cuda : Bool) :
    Ev.logLR ∉ trainBatchEvents cuda := by
  cases cuda <;> simp [trainBatchEvents]

lemma logLR_not_mem_valBatchEvents (cuda : Bool) :
    Ev.logLR ∉ valBatchEvents cuda := by
  simp [valBatchEvents]

/-- C5: the scheduler is constructed as reduce-on-plateau with `mode='max'`
(maximize), `factor=0.1` and `patience=5`; in every successful epoch its
`step` is called exactly once, with that epoch's validation accuracy as the
metric, positioned after both phases (no forward/backward/optimizer event
follows it) and before the metric logging and checkpointing (no
save-checkpoint, metric-log or LR-log event precedes it). -/
theorem C5_scheduler_step_once_after_val :
    schedulerConfig = ⟨true, 1/10, 5⟩ ∧
    ∀ (cuda : Bool) (tbs vbs : List (Except String Batch)) (ep : ℕ)
      (best best' : ℚ) (info : EpochInfo),
      runEpoch cuda tbs vbs ep best = .ok (best', info) →
        List.count (Ev.schedStep info.val_acc) info.events = 1 ∧
        (∀ m, Ev.schedStep m ∈ info.events → m = info.val_acc) ∧
        ∃ pre post, info.events = pre ++ Ev.schedStep info.val_acc :: post ∧
          (∀ l a, Ev.saveCheckpoint ep l a ∉ pre) ∧
          (∀ a b c d, Ev.logMetrics a b c d ∉ pre) ∧
          Ev.logLR ∉ pre ∧
          (∀ ac, Ev.forward ac ∉ post) ∧
          (∀ sc, Ev.backward sc ∉ post) ∧
          (∀ sc, Ev.optStep sc ∉ post) ∧
          (∀ ac ng, Ev.valForward ac ng ∉ post) := by
  refine ⟨rfl, ?_⟩
  intro cuda tbs vbs ep best best' info h
  obtain ⟨bs, cs, -, -, -, -, -, -, -, hev⟩ := runEpoch_ok_destruct h
  have hF1 : ∀ m, Ev.schedStep m ∉ (List.replicate bs.length (trainBatchEvents cuda)).flatten :=
    fun m hmem => schedStep_not_mem_trainBatchEvents cuda m (mem_flatten_replicate.mp hmem).2
  have hF2 : ∀ m, Ev.schedStep m ∉ (List.replicate cs.length (valBatchEvents cuda)).flatten :=
    fun m hmem => schedStep_not_mem_valBatchEvents cuda m (mem_flatten_replicate.mp hmem).2
  refine ⟨?_, ?_, ?_⟩
  · rw [hev, List.count_append, List.count_append, List.count_append,
      List.count_eq_zero.mpr (hF1 _), List.count_eq_zero.mpr (hF2 _)]
    split <;> simp [List.count_cons]
  · intro m hmem
    rw [hev] at hmem
    simp only [List.mem_append] at hmem
    rcases hmem with (((hm | hm) | hm) | hm)
    · exact absurd hm (hF1 m)
    · exact absurd hm (hF2 m)
    · simpa using hm
    · exfalso
      revert hm
      split <;> simp
  · refine ⟨(List.replicate bs.length (trainBatchEvents cuda)).flatten ++
        (List.replicate cs.length (valBatchEvents cuda)).flatten,
      Ev.logLR ::
        Ev.logMetrics (info.trainAcc.loss / (bs.length : ℚ))
          (100 * (info.trainAcc.correct : ℚ) / (info.trainAcc.total : ℚ))
          (info.valPhaseAcc.loss / (cs.length : ℚ)) info.val_acc ::
        (if best < info.val_acc
          then [Ev.saveCheckpoint ep (info.valPhaseAcc.loss / (cs.length : ℚ)) info.val_acc,
                Ev.logBestSaved info.val_acc]
          else []), ?_, ?_, ?_, ?_, ?_, ?_, ?_, ?_⟩
    · rw [hev]
      simp [List.append_assoc]
    · intro l a hmem
      rcases List.mem_append.mp hmem with hm | hm
      · exact saveCheckpoint_not_mem_trainBatchEvents cuda ep l a (mem_flatten_replicate.mp hm).2
      · exact saveCheckpoint_not_mem_valBatchEvents cuda ep l a (mem_flatten_replicate.mp hm).2
    · intro a b c d hmem
      rcases List.mem_append.mp hmem with hm | hm
      · exact logMetrics_not_mem_trainBatchEvents cuda a b c d (mem_flatten_replicate.mp hm).2
      · exact logMetrics_not_mem_valBatchEvents cuda a b c d (mem_flatten_replicate.mp hm).2
    · intro hmem
      rcases List.mem_append.mp hmem with hm | hm
      · exact logLR_not_mem_trainBatchEvents cuda (mem_flatten_replicate.mp hm).2
      · exact logLR_not_mem_valBatchEvents cuda (mem_flatten_replicate.mp hm).2
    · intro ac hmem
      simp only [List.mem_cons] at hmem
      rcases hmem with h' | h' | hmem
      · simp at h'
      · simp at h'
      · revert hmem
        split <;> simp
    · intro sc hmem
      simp only [List.mem_cons] at hmem
      rcases hmem with h' | h' | hmem
      · simp at h'
      · simp at h'
      · revert hmem
        split <;> simp
    · intro sc hmem
      simp only [List.mem_cons] at hmem
      rcases hmem with h' | h' | hmem
      · simp at h'
      · simp at h'
      · revert hmem
        split <;> simp
    · intro ac ng hmem
      simp only [List.mem_cons] at hmem
      rcases hmem with h' | h' | hmem
      · simp at h'
      · simp at h'
      · revert hmem
        split <;> simp

/-- Witness for C5 at a concrete one-batch CPU epoch. -/
theorem C5_witness :
    List.count (Ev.schedStep sampleEpochInfo.val_acc) sampleEpochInfo.events = 1 ∧
    (∀ m, Ev.schedStep m ∈ sampleEpochInfo.events → m = sampleEpochInfo.val_acc) ∧
    ∃ pre post, sampleEpochInfo.events = pre ++ Ev.schedStep sampleEpochInfo.val_acc :: post ∧
      (∀ l a, Ev.saveCheckpoint 0 l a ∉ pre) ∧
      (∀ a b c d, Ev.logMetrics a b c d ∉ pre) ∧
      Ev.logLR ∉ pre ∧
      (∀ ac, Ev.forward ac ∉ post) ∧
      (∀ sc, Ev.backward sc ∉ post) ∧
      (∀ sc, Ev.optStep sc ∉ post) ∧
      (∀ ac ng, Ev.valForward ac ng ∉ post) :=
  C5_scheduler_step_once_after_val.2 false [.ok sampleBatch] [.ok sampleBatch] 0 0 50
    sampleEpochInfo (by
      norm_num [runEpoch, trainPhase, valPhase, trainBatchEvents, valBatchEvents,
        sampleBatch, sampleEpochInfo, sampleAcc, sampleEpochEvents,
        PhaseAcc.init, PhaseAcc.add, Batch.size, Batch.correct])

/-- C6: the metrics logged at the end of a successful epoch are exactly:
training (resp. validation) accuracy = 100 × (number of samples whose
argmax prediction equals the label) / (total samples of the phase), and
training (resp. validation) loss = (sum of the per-batch loss values) /
(number of batches in the corresponding loader); the epoch's `val_acc` is
that same validation accuracy. -/
theorem C6_logged_metrics_formulas :
    ∀ (cuda : Bool) (tbs vbs : List (Except String Batch)) (ep : ℕ)
      (best best' : ℚ) (info : EpochInfo),
      runEpoch cuda tbs vbs ep best = .ok (best', info) →
      ∃ bs cs : List Batch,
        tbs = bs.map Except.ok ∧ vbs = cs.map Except.ok ∧
        Ev.logMetrics
          ((bs.map Batch.loss).sum / (bs.length : ℚ))
          (100 * (((bs.map Batch.correct).sum : ℕ) : ℚ) / (((bs.map Batch.size).sum : ℕ) : ℚ))
          ((cs.map Batch.loss).sum / (cs.length : ℚ))
          (100 * (((cs.map Batch.correct).sum : ℕ) : ℚ) / (((cs.map Batch.size).sum : ℕ) : ℚ))
          ∈ info.events ∧
        info.val_acc =
          100 * (((cs.map Batch.correct).sum : ℕ) : ℚ) / (((cs.map Batch.size).sum : ℕ) : ℚ) ∧
        (∀ a b c d, Ev.logMetrics a b c d ∈ info.events →
          a = (bs.map Batch.loss).sum / (bs.length : ℚ) ∧
          b = 100 * (((bs.map Batch.correct).sum : ℕ) : ℚ) / (((bs.map Batch.size).sum : ℕ) : ℚ) ∧
          c = (cs.map Batch.loss).sum / (cs.length : ℚ) ∧
          d = 100 * (((cs.map Batch.correct).sum : ℕ) : ℚ) / (((cs.map Batch.size).sum : ℕ) : ℚ)) := by
  intro cuda tbs vbs ep best best' info h
  obtain ⟨bs, cs, h1, h2, h3, h4, h5, -, -, hev⟩ := runEpoch_ok_destruct h
  have htl : info.trainAcc.loss = (bs.map Batch.loss).sum := by
    rw [h3, foldl_add_loss]
    simp [PhaseAcc.init]
  have htc : info.trainAcc.correct = (bs.map Batch.correct).sum := by
    rw [h3, foldl_add_correct]
    simp [PhaseAcc.init]
  have htt : info.trainAcc.total = (bs.map Batch.size).sum := by
    rw [h3, foldl_add_total]
    simp [PhaseAcc.init]
  have hvl : info.valPhaseAcc.loss = (cs.map Batch.loss).sum := by
    rw [h4, foldl_add_loss]
    simp [PhaseAcc.init]
  have hvc : info.valPhaseAcc.correct = (cs.map Batch.correct).sum := by
    rw [h4, foldl_add_correct]
    simp [PhaseAcc.init]
  have hvt : info.valPhaseAcc.total = (cs.map Batch.size).sum := by
    rw [h4, foldl_add_total]
    simp [PhaseAcc.init]
  refine ⟨bs, cs, h1, h2, ?_, ?_, ?_⟩
  · rw [← htl, ← htc, ← htt, ← hvl, ← hvc, ← hvt, ← h5, hev]
    simp [List.mem_append]
  · rw [h5, hvc, hvt]
  · intro a b c d hmem
    rw [hev] at hmem
    simp only [List.mem_append] at hmem
    rcases hmem with (((hm | hm) | hm) | hm)
    · exact absurd hm
        (fun hmem => logMetrics_not_mem_trainBatchEvents cuda a b c d
          ((mem_flatten_replicate.mp hmem).2))
    · exact absurd hm
        (fun hmem => logMetrics_not_mem_valBatchEvents cuda a b c d
          ((mem_flatten_replicate.mp hmem).2))
    · simp only [List.mem_cons, List.not_mem_nil, or_false] at hm
      rcases hm with h' | h' | h'
      · simp at h'
      · simp at h'
      · simp only [Ev.logMetrics.injEq] at h'
        obtain ⟨ha, hb, hc, hd⟩ := h'
        subst ha hb hc hd
        rw [htl, htc, htt, hvl]
        exact ⟨rfl, rfl, rfl, by rw [h5, hvc, hvt]⟩
    · exfalso
      revert hm
      split <;> simp

/-- Witness for C6 at a concrete one-batch CPU epoch. -/
theorem C6_witness :
    ∃ bs cs : List Batch,
      ([Except.ok sampleBatch] : List (Except String Batch)) = bs.map Except.ok ∧
      ([Except.ok sampleBatch] : List (Except String Batch)) = cs.map Except.ok ∧
      Ev.logMetrics
        ((bs.map Batch.loss).sum / (bs.length : ℚ))
        (100 * (((bs.map Batch.correct).sum : ℕ) : ℚ) / (((bs.map Batch.size).sum : ℕ) : ℚ))
        ((cs.map Batch.loss).sum / (cs.length : ℚ))
        (100 * (((cs.map Batch.correct).sum : ℕ) : ℚ) / (((cs.map Batch.size).sum : ℕ) : ℚ))
        ∈ sampleEpochInfo.events ∧
      sampleEpochInfo.val_acc =
        100 * (((cs.map Batch.correct).sum : ℕ) : ℚ) / (((cs.map Batch.size).sum : ℕ) : ℚ) ∧
      (∀ a b c d, Ev.logMetrics a b c d ∈ sampleEpochInfo.events →
        a = (bs.map Batch.loss).sum / (bs.length : ℚ) ∧
        b = 100 * (((bs.map Batch.correct).sum : ℕ) : ℚ) / (((bs.map Batch.size).sum : ℕ) : ℚ) ∧
        c = (cs.map Batch.loss).sum / (cs.length : ℚ) ∧
        d = 100 * (((cs.map Batch.correct).sum : ℕ) : ℚ) / (((cs.map Batch.size).sum : ℕ) : ℚ)) :=
  C6_logged_metrics_formulas false [.ok sampleBatch] [.ok sampleBatch] 0 0 50
    sampleEpochInfo (by
      norm_num [runEpoch, trainPhase, valPhase, trainBatchEvents, valBatchEvents,
        sampleBatch, sampleEpochInfo, sampleAcc, sampleEpochEvents,
        PhaseAcc.init, PhaseAcc.add, Batch.size, Batch.correct])

/-- C7: the `__main__` configuration is exactly the literal record of
lines 176-184 (directories, batch size 64, learning rate `1e-4`, weight
decay `1e-5`, 50 epochs); the log and checkpoint directories are created,
in that order, with `exist_ok=True` (tolerating pre-existing directories);
and every completed training run performs exactly `num_epochs` epochs. -/
theorem C7_config_and_epoch_count :
    mainConfig = ⟨"../data/split_images", "../logs", "../checkpoints",
      64, 1/10000, 1/100000, 50⟩ ∧
    mainMakeDirs = [⟨mainConfig.log_dir, true⟩, ⟨mainConfig.checkpoint_dir, true⟩] ∧
    (∀ m ∈ mainMakeDirs, m.exist_ok = true) ∧
    mainConfig.num_epochs = 50 ∧
    (∀ (cfg : Config) (env : Env) (best : ℚ) (infos : List EpochInfo),
      train cfg env = .ok (.completed best infos) → infos.length = cfg.num_epochs) := by
  refine ⟨rfl, rfl, by simp [mainMakeDirs], rfl, ?_⟩
  intro cfg env best infos h
  obtain ⟨-, -, hL⟩ := train_completed_destruct h
  exact (runLoop_ok_destruct hL).1

/-- Witness for C7: a zero-epoch run completes with zero epochs. -/
theorem C7_witness : ([] : List EpochInfo).length = cfgZeroEpochs.num_epochs :=
  C7_config_and_epoch_count.2.2.2.2 cfgZeroEpochs sampleEnv 0 [] rfl

lemma foldl_max_take_succ (l : List ℚ) (b : ℚ) (k : ℕ) (hk : k < l.length) :
    (l.take (k + 1)).foldl max b = max ((l.take k).foldl max b) (l.get ⟨k, hk⟩) := by
  rw [List.take_succ, List.getElem?_eq_getElem hk]
  simp only [Option.toList_some, List.foldl_append, List.foldl_cons, List.foldl_nil,
    List.get_eq_getElem]

/-- C8: over a completed run the recorded best validation accuracy is the
running maximum of 0.0 and the validation accuracies of the completed
epochs: the final best is the fold of `max` over all of them, the running
value is non-decreasing and never below 0, each epoch is saved exactly when
its accuracy strictly exceeds the running best before it, and an epoch
whose accuracy merely equals the running best saves nothing and leaves the
best unchanged. -/
theorem C8_best_val_acc_running_max :
    ∀ (cfg : Config) (env : Env) (best : ℚ) (infos : List EpochInfo),
      train cfg env = .ok (.completed best infos) →
        best = (infos.map EpochInfo.val_acc).foldl max 0 ∧
        (∀ k, ((infos.map EpochInfo.val_acc).take k).foldl max 0 ≤
              ((infos.map EpochInfo.val_acc).take (k + 1)).foldl max 0) ∧
        (∀ k, (0 : ℚ) ≤ ((infos.map EpochInfo.val_acc).take k).foldl max 0) ∧
        (∀ k (hk : k < infos.length),
          (infos.get ⟨k, hk⟩).saved =
            decide (((infos.take k).map EpochInfo.val_acc).foldl max 0 <
              (infos.get ⟨k, hk⟩).val_acc)) ∧
        (∀ k (hk : k < infos.length),
          (infos.get ⟨k, hk⟩).val_acc =
              ((infos.take k).map EpochInfo.val_acc).foldl max 0 →
            (infos.get ⟨k, hk⟩).saved = false ∧
            ((infos.take (k + 1)).map EpochInfo.val_acc).foldl max 0 =
              ((infos.take k).map EpochInfo.val_acc).foldl max 0) := by
  intro cfg env best infos h
  obtain ⟨-, -, hL⟩ := train_completed_destruct h
  obtain ⟨hlen, hbest, hidx⟩ := runLoop_ok_destruct hL
  have hsavedk : ∀ k (hk : k < infos.length),
      (infos.get ⟨k, hk⟩).saved =
        decide (((infos.take k).map EpochInfo.val_acc).foldl max 0 <
          (infos.get ⟨k, hk⟩).val_acc) := by
    intro k hk
    have hk0 := hidx k hk
    obtain ⟨bs, cs, -, -, -, -, -, -, hsaved, -⟩ := runEpoch_ok_destruct hk0
    exact hsaved
  refine ⟨hbest, fun k => foldl_max_take_mono _ 0 k,
    fun k => le_foldl_max _ 0, hsavedk, ?_⟩
  intro k hk heq
  refine ⟨?_, ?_⟩
  · rw [hsavedk k hk, heq]
    simp
  · have hk' : k < (infos.map EpochInfo.val_acc).length := by simpa using hk
    rw [List.map_take, List.map_take, foldl_max_take_succ _ 0 k hk']
    have hget : (infos.map EpochInfo.val_acc).get ⟨k, hk'⟩ = (infos.get ⟨k, hk⟩).val_acc := by
      simp
    rw [hget, heq, List.map_take]
    exact max_self _

/-- Witness for C8: the one-epoch sample run ends with best accuracy 50,
the fold of max over the single epoch's accuracy. -/
theorem C8_witness :
    (50 : ℚ) = ([sampleEpochInfo].map EpochInfo.val_acc).foldl max 0 :=
  (C8_best_val_acc_running_max cfgOneEpoch sampleEnv 50 [sampleEpochInfo] (by
    norm_num [train, runLoop, runEpoch, trainPhase, valPhase, trainBatchEvents,
      valBatchEvents, sampleEnv, sampleBatch, sampleEpochInfo, sampleAcc,
      sampleEpochEvents, cfgOneEpoch, PhaseAcc.init, PhaseAcc.add,
      Batch.size, Batch.correct])).1

lemma natsum_pos_iff (l : List ℕ) : 0 < l.sum ↔ ∃ x ∈ l, 0 < x := by
  induction l with
  | nil => simp
  | cons x xs ih =>
    simp only [List.sum_cons, List.mem_cons]
    constructor
    · intro hpos
      by_cases hx : 0 < x
      · exact ⟨x, Or.inl rfl, hx⟩
      · have hs : 0 < xs.sum := by omega
        obtain ⟨y, hy, hy'⟩ := ih.mp hs
        exact ⟨y, Or.inr hy, hy'⟩
    · rintro ⟨y, hy | hy, hy'⟩
      · subst hy
        omega
      · have := ih.mpr ⟨y, hy, hy'⟩
        omega

/-- C9: the epoch-end accumulators equal the summed batch sizes, so all the
divisors of the metric computations (cumulative sample counts and loader
lengths) are nonzero exactly when the corresponding loader yields at least
one batch and at least one sample; an empty loader makes both its divisors
zero; and under the precondition that every yielded batch is nonempty, every
in-loop cumulative sample count (the divisor of the progress-bar update) is
positive as well. -/
theorem C9_metric_divisors :
    ∀ (cuda : Bool) (bs cs : List Batch) (tAcc vAcc : PhaseAcc) (tEvs vEvs : List Ev),
      trainPhase cuda (bs.map Except.ok) PhaseAcc.init = .ok (tAcc, tEvs) →
      valPhase cuda (cs.map Except.ok) PhaseAcc.init = .ok (vAcc, vEvs) →
      (tAcc.total = (bs.map Batch.size).sum ∧ vAcc.total = (cs.map Batch.size).sum) ∧
      ((0 < bs.length ∧ 0 < tAcc.total) ↔ (bs ≠ [] ∧ ∃ b ∈ bs, 0 < b.size)) ∧
      ((0 < cs.length ∧ 0 < vAcc.total) ↔ (cs ≠ [] ∧ ∃ b ∈ cs, 0 < b.size)) ∧
      (bs = [] → bs.length = 0 ∧ tAcc.total = 0) ∧
      (cs = [] → cs.length = 0 ∧ vAcc.total = 0) ∧
      ((∀ b ∈ bs, 0 < b.size) → ∀ k, k < bs.length →
        0 < ((bs.take (k + 1)).map Batch.size).sum) := by
  intro cuda bs cs tAcc vAcc tEvs vEvs ht hv
  rw [trainPhase_map_ok] at ht
  rw [valPhase_map_ok] at hv
  have htA : tAcc = bs.foldl PhaseAcc.add PhaseAcc.init := by cases ht; rfl
  have hvA : vAcc = cs.foldl PhaseAcc.add PhaseAcc.init := by cases hv; rfl
  have htt : tAcc.total = (bs.map Batch.size).sum := by
    rw [htA, foldl_add_total]
    simp [PhaseAcc.init]
  have hvt : vAcc.total = (cs.map Batch.size).sum := by
    rw [hvA, foldl_add_total]
    simp [PhaseAcc.init]
  refine ⟨⟨htt, hvt⟩, ?_, ?_, ?_, ?_, ?_⟩
  · rw [htt, List.length_pos]
    constructor
    · rintro ⟨hne, hpos⟩
      obtain ⟨x, hx, hx'⟩ := (natsum_pos_iff _).mp hpos
      obtain ⟨b, hb, rfl⟩ := List.mem_map.mp hx
      exact ⟨hne, b, hb, hx'⟩
    · rintro ⟨hne, b, hb, hb'⟩
      exact ⟨hne, (natsum_pos_iff _).mpr ⟨b.size, List.mem_map.mpr ⟨b, hb, rfl⟩, hb'⟩⟩
  · rw [hvt, List.length_pos]
    constructor
    · rintro ⟨hne, hpos⟩
      obtain ⟨x, hx, hx'⟩ := (natsum_pos_iff _).mp hpos
      obtain ⟨b, hb, rfl⟩ := List.mem_map.mp hx
      exact ⟨hne, b, hb, hx'⟩
    · rintro ⟨hne, b, hb, hb'⟩
      exact ⟨hne, (natsum_pos_iff _).mpr ⟨b.size, List.mem_map.mpr ⟨b, hb, rfl⟩, hb'⟩⟩
  · rintro rfl
    simp [htt]
  · rintro rfl
    simp [hvt]
  · intro hall k hk
    apply (natsum_pos_iff _).mpr
    have hne : bs ≠ [] := by
      intro hnil
      rw [hnil] at hk
      simp at hk
    have htk : bs.take (k + 1) ≠ [] := by
      rw [ne_eq, List.take_eq_nil_iff]
      simp [hne]
    obtain ⟨b, hb⟩ := List.exists_mem_of_ne_nil _ htk
    exact ⟨b.size, List.mem_map.mpr ⟨b, hb, rfl⟩,
      hall b (List.take_subset _ _ hb)⟩

/-- Witness for C9 at a concrete one-batch phase on each loader. -/
theorem C9_witness :
    sampleAcc.total = ([sampleBatch].map Batch.size).sum ∧
    sampleAcc.total = ([sampleBatch].map Batch.size).sum :=
  (C9_metric_divisors false [sampleBatch] [sampleBatch] sampleAcc sampleAcc
    (trainBatchEvents false) (valBatchEvents false)
    (by norm_num [trainPhase, trainBatchEvents, sampleBatch, sampleAcc,
        PhaseAcc.init, PhaseAcc.add, Batch.size, Batch.correct])
    (by norm_num [valPhase, valBatchEvents, sampleBatch, sampleAcc,
        PhaseAcc.init, PhaseAcc.add, Batch.size, Batch.correct])).1

/-- C10: both dataloaders are built with the same batch size (the
configured one), the same worker count (2 on Windows, otherwise the
minimum of the CPU count and 4, hence at most 4 off-Windows), and the same
pin-memory flag (set exactly when CUDA is available); shuffling is on for
the training loader and off for the validation loader. -/
theorem C10_dataloader_settings :
    ∀ (cfg : Config) (env : Env),
      (trainLoaderConfig cfg env).batch_size = cfg.batch_size ∧
      (valLoaderConfig cfg env).batch_size = cfg.batch_size ∧
      (trainLoaderConfig cfg env).num_workers = (valLoaderConfig cfg env).num_workers ∧
      (trainLoaderConfig cfg env).pin_memory = (valLoaderConfig cfg env).pin_memory ∧
      (trainLoaderConfig cfg env).num_workers =
        (if env.os_is_nt then 2 else min env.cpu_count 4) ∧
      (env.os_is_nt = false → (trainLoaderConfig cfg env).num_workers ≤ 4) ∧
      (trainLoaderConfig cfg env).pin_memory = env.cuda_available ∧
      (trainLoaderConfig cfg env).shuffle = true ∧
      (valLoaderConfig cfg env).shuffle = false := by
  intro cfg env
  refine ⟨rfl, rfl, rfl, rfl, rfl, ?_, rfl, rfl, rfl⟩
  intro hnt
  show numWorkers env.os_is_nt env.cpu_count ≤ 4
  rw [numWorkers, hnt]
  simp

/-- Witness for C10: off Windows the worker count never exceeds 4. -/
theorem C10_witness : (trainLoaderConfig mainConfig sampleEnv).num_workers ≤ 4 :=
  (C10_dataloader_settings mainConfig sampleEnv).2.2.2.2.2.1 rfl

end EmotionRecognition
